import Mathlib

/-!
Verification of the download orchestration core of PyTubeGrabber.

This file gives a shallow embedding of the pure fragment of
`src/pytubegrabber/core/downloader.py` and `src/pytubegrabber/utils/config.py`
(class `VideoDownloader` and its configuration helpers) and proves the
behavioural properties of the format-selection policy, the filename
derivation, the adapter-option construction, the post-download artifact
scan and the batch-download aggregation.

Effectful steps (the network probe `get_video_info`, the adapter transfer,
the filesystem existence check and directory listing) are abstracted as
explicit parameters holding their outcome, exactly as observed by the
surrounding pure code: a probe is an `Except String VideoInfo`, a transfer
is its integer completion code, the filesystem is an existence flag plus a
directory listing.
-/

namespace PyTubeGrabber

/-- One raw stream-format dictionary as produced by the extraction adapter
(yt-dlp) and consumed by `get_available_formats`.  Only the keys the
orchestration core reads are modelled; a key that may be missing or `None`
in the Python dict is an `Option` (`height`, `ext`, `acodec`,
`format_note`), while `format_id` is read with mandatory indexing
(`fmt['format_id']`) and is modelled total. -/
structure RawFormat where
  format_id : String
  ext : Option String
  height : Option Nat
  acodec : Option String
  format_note : Option String
deriving DecidableEq

/-- The video-info dictionary returned by `get_video_info`.  `title` and
`uploader` are `Option` because the Python code reads them with
`dict.get` and a default; a missing `formats` key is modelled as `[]`
(the code reads it as `info.get('formats', [])`). -/
structure VideoInfo where
  id : String
  title : Option String
  uploader : Option String
  formats : List RawFormat
deriving DecidableEq

/-- One user-facing format entry as built by `get_available_formats`:
keys `id`, `ext`, `description`, `format_note`, `format` of the Python
dict.  `format` holds the raw format for live video entries and is
`none` for the audio entries (the Python value `None`). -/
structure FormatChoice where
  id : String
  ext : String
  description : String
  format_note : String
  format : Option RawFormat
deriving DecidableEq

/-- A post-processing instruction dict (`key`, `preferredcodec`,
`preferredquality`) as attached under `postprocessors`. -/
structure Postprocessor where
  key : String
  preferredcodec : String
  preferredquality : String
deriving DecidableEq

/-- The yt-dlp options dictionary as assembled by `_get_ydl_opts` plus the
updates in `download_video` (downloader.py lines 202-233).  Keys that are
present only after an update (`format`, `outtmpl`, `noplaylist`,
`postprocessors`) are `Option`, `none` meaning the key is absent.  The
`progress_hooks` entry holds a function value and is outside the pure
fragment; no claim mentions it, so it is not modelled. -/
structure YdlOpts where
  quiet : Bool
  no_warnings : Bool
  ignoreerrors : Bool
  no_check_certificate : Bool
  windowsfilenames : Bool
  prefer_ffmpeg : Bool
  geo_bypass : Bool
  age_limit : Nat
  nocheckcertificate : Bool
  skip_download : Bool
  format : Option String
  outtmpl : Option String
  noplaylist : Option Bool
  postprocessors : Option (List Postprocessor)
deriving DecidableEq

/-- `get_default_options` (config.py lines 94-111) merged with the
`skip_download` update of `_get_ydl_opts` (downloader.py lines 36-54). -/
def ydl_base_opts (skip : Bool) : YdlOpts :=
  { quiet := true
    no_warnings := true
    ignoreerrors := true
    no_check_certificate := true
    windowsfilenames := true
    prefer_ffmpeg := true
    geo_bypass := true
    age_limit := 99
    nocheckcertificate := true
    skip_download := skip
    format := none
    outtmpl := none
    noplaylist := none
    postprocessors := none }

/-- `get_fallback_formats` (config.py lines 113-147).  Its first loop
iterates over the global name `MP4_QUALITY_PRESETS`, which is defined
nowhere in the repository (config.py imports only `os`, `json` and
`typing`, and no other module defines it), so in Python every call raises
`NameError` before building a single entry.  The embedding therefore
returns that error unconditionally; the error text models the Python
`str` of the `NameError` (which quotes the name). -/
def get_fallback_formats : Except String (List FormatChoice) :=
  Except.error "name MP4_QUALITY_PRESETS is not defined"

/-- The sort key of `video_formats.sort(key=lambda x: (x.get('height', 0) or 0),
reverse=True)`: a missing or `None` height is 0, and `or 0` also sends an
explicit 0 to 0, so the key is `height.getD 0`. -/
def heightKey (f : RawFormat) : Nat :=
  f.height.getD 0

/-- The filter of downloader.py lines 97-98: mp4 container, known height,
and an audio track (`acodec != 'none'`; a missing `acodec` key compares
unequal to `'none'` and passes). -/
def isUsableVideo (f : RawFormat) : Bool :=
  f.ext == some "mp4" && f.height.isSome && f.acodec != some "none"

/-- The comparison used to sort `video_formats` by height, descending. -/
def byHeightDesc (a b : RawFormat) : Prop :=
  heightKey b ≤ heightKey a

instance : DecidableRel byHeightDesc :=
  fun a b => Nat.decLe (heightKey b) (heightKey a)

instance : IsTotal RawFormat byHeightDesc :=
  ⟨fun a b => Nat.le_total (heightKey b) (heightKey a)⟩

instance : IsTrans RawFormat byHeightDesc :=
  ⟨fun _ _ _ hab hbc => Nat.le_trans hbc hab⟩

/-- The in-place `video_formats.sort(..., reverse=True)` of line 105.
Python sorts stably; a stable sort by a key is a unique function of the
input list, so the embedding may use any stable sort and uses insertion
sort, which is stable and structurally recursive. -/
def sortByHeightDesc (l : List RawFormat) : List RawFormat :=
  l.insertionSort byHeightDesc

/-- The dict appended for one selected video format (lines 114-120). -/
def videoChoice (f : RawFormat) (h : Nat) : FormatChoice :=
  { id := f.format_id
    ext := "mp4"
    description := toString h ++ "p (MP4)"
    format_note := f.format_note.getD ""
    format := some f }

/-- The selection loop of downloader.py lines 108-121: walk the sorted
list, keeping at most 5 entries, at most one per distinct height, and
skipping a falsy height (`if height` rejects both `None` and `0`).
The source keys the dedup set `added_resolutions` by `str(height)`;
`str` is injective on the integer heights, so the embedding keys the
set by the height itself.  `added` is the dedup set so far, `acc` the
`formats` list so far. -/
def selectVideoFormats : List RawFormat → List Nat → List FormatChoice → List FormatChoice
  | [], _, acc => acc
  | f :: rest, added, acc =>
    match f.height with
    | none => selectVideoFormats rest added acc
    | some h =>
      if h ≠ 0 ∧ acc.length < 5 then
        if h ∈ added then
          selectVideoFormats rest added acc
        else
          selectVideoFormats rest (h :: added) (acc ++ [videoChoice f h])
      else
        selectVideoFormats rest added acc

/-- The MP3 audio entry appended at lines 124-130. -/
def mp3Choice : FormatChoice :=
  { id := "bestaudio/best"
    ext := "mp3"
    description := "Melhor qualidade (MP3)"
    format_note := "Audio"
    format := none }

/-- The WAV audio entry appended at lines 133-139. -/
def wavChoice : FormatChoice :=
  { id := "bestaudio/best"
    ext := "wav"
    description := "Alta fidelidade (WAV)"
    format_note := "Audio"
    format := none }

/-- The placeholder info dict built at line 159 when the secondary probe
also fails: `{'id': url, 'title': 'Vídeo do YouTube', 'uploader':
'Desconhecido'}` (no `formats` key). -/
def placeholderInfo (url : String) : VideoInfo :=
  { id := url
    title := some "Vídeo do YouTube"
    uploader := some "Desconhecido"
    formats := [] }

/-- The `except Exception` handler of downloader.py lines 148-161.  It
first calls `get_fallback_formats()` (line 152); the `NameError` that
call raises escapes the handler before the secondary probe (line 156) is
reached.  Were the call to return, the handler would retry the probe and
fall back to `placeholderInfo`.  `probe2` is the outcome of the retry
`get_video_info(url)`. -/
def formatsErrorHandler (url : String) (probe2 : Except String VideoInfo) :
    Except String (List FormatChoice × VideoInfo) :=
  match get_fallback_formats with
  | Except.error e => Except.error e
  | Except.ok fbs =>
    match probe2 with
    | Except.ok info => Except.ok (fbs, info)
    | Except.error _ => Except.ok (fbs, placeholderInfo url)

/-- `VideoDownloader.get_available_formats` (downloader.py lines 80-164).
`probe1` is the outcome of the first `get_video_info(url)` call (line 96)
and `probe2` that of the retry inside the error handler (line 156).  The
empty-filter path calls `get_fallback_formats()` inside the inner `try`
(line 145), so its `NameError` is caught by the inner handler, whose own
`get_fallback_formats()` call raises again and reaches the outer wrapper
(lines 163-164). -/
def get_available_formats (url : String) (probe1 probe2 : Except String VideoInfo) :
    Except String (List FormatChoice × VideoInfo) :=
  let inner : Except String (List FormatChoice × VideoInfo) :=
    match probe1 with
    | Except.error _ => formatsErrorHandler url probe2
    | Except.ok info =>
      let video_formats := info.formats.filter isUsableVideo
      if video_formats.isEmpty then
        match get_fallback_formats with
        | Except.error _ => formatsErrorHandler url probe2
        | Except.ok fbs => Except.ok (fbs, info)
      else
        Except.ok
          (selectVideoFormats (sortByHeightDesc video_formats) [] [] ++ [mp3Choice, wavChoice],
            info)
  match inner with
  | Except.ok r => Except.ok r
  | Except.error e => Except.error ("Erro ao obter formatos disponíveis: " ++ e)

/-- The characters admitted by the sanitizer besides alphanumerics
(downloader.py line 194): space, hyphen, underscore, dot, comma, and the
round, square and curly bracket pairs. -/
def allowedPunct : List Char :=
  " -_.,()[]\x7b\x7d".toList

/-- The character filter `c.isalnum() or c in ' -_.,()[]{}'` of line 194.
Python `str.isalnum` is Unicode-aware; `Char.isAlphanum` matches it on
the ASCII range, which is what the claims exercise. -/
def isAllowedChar (c : Char) : Bool :=
  c.isAlphanum || decide (c ∈ allowedPunct)

/-- Python `str.strip()` on a character list: drop leading and trailing
whitespace. -/
def pyStrip (s : List Char) : List Char :=
  ((s.dropWhile Char.isWhitespace).reverse.dropWhile Char.isWhitespace).reverse

/-- The sanitizer of downloader.py lines 194-195: keep only allowed
characters, then strip leading/trailing whitespace. -/
def safe_title (video_title : String) : String :=
  ⟨pyStrip (video_title.toList.filter isAllowedChar)⟩

/-- The fallback title of line 191:
`f"youtube_video_{url.split('v=')[-1] if 'v=' in url else 'download'}"`. -/
def fallbackVideoTitle (url : String) : String :=
  let parts := url.splitOn "v="
  if parts.length > 1 then "youtube_video_" ++ parts.getLastD ""
  else "youtube_video_download"

/-- The title resolution of lines 186-191: read the probed title with
default `'video'`, or derive a name from the URL when the probe raised. -/
def videoTitle (probe : Except String VideoInfo) (url : String) : String :=
  match probe with
  | Except.ok info => info.title.getD "video"
  | Except.error _ => fallbackVideoTitle url

/-- The filename composed at line 198 when no usable explicit filename is
given: sanitized title, a dot, and the target extension. -/
def composedFilename (probe : Except String VideoInfo) (url ext : String) : String :=
  safe_title (videoTitle probe url) ++ "." ++ ext

/-- Lines 197-198: `if not filename` replaces both an absent (`None`) and
an empty explicit filename by the composed one (Python truthiness). -/
def effectiveFilename (probe : Except String VideoInfo) (url ext : String)
    (filename? : Option String) : String :=
  match filename? with
  | none => composedFilename probe url ext
  | some f => if f = "" then composedFilename probe url ext else f

/-- Python `str.startswith` with a string argument: character-level
prefix test. -/
def pyStartsWith (s p : String) : Bool :=
  p.toList.isPrefixOf s.toList

/-- Python `str.endswith` with a string argument: character-level suffix
test. -/
def pyEndsWith (s p : String) : Bool :=
  p.toList.isSuffixOf s.toList

/-- POSIX `os.path.join` for two components: an absolute second component
replaces the first; otherwise the parts are glued, inserting `/` unless
the first part is empty or already ends in `/`. -/
def pathJoin (a b : String) : String :=
  if pyStartsWith b "/" then b
  else if a = "" || pyEndsWith a "/" then a ++ b
  else a ++ "/" ++ b

/-- The output path composed at line 200: destination directory joined
with the effective filename. -/
def outputFile (probe : Except String VideoInfo) (url output_path ext : String)
    (filename? : Option String) : String :=
  pathJoin output_path (effectiveFilename probe url ext filename?)

/-- Python `str.rfind` on a character list: index of the last occurrence,
`-1` when absent. -/
def lastIdxOf (c : Char) (s : List Char) : Int :=
  (s.foldl (fun (st : Int × Int) ch => (st.1 + 1, if ch = c then st.1 else st.2)) (0, -1)).2

/-- The root part of POSIX `os.path.splitext(p)`: cut at the last dot
when it lies inside the basename and the basename has a non-dot
character before it (so dotfiles keep their name), else return `p`
unchanged. -/
def splitextRoot (p : String) : String :=
  let s := p.toList
  let sepIndex := lastIdxOf '/' s
  let dotIndex := lastIdxOf '.' s
  if sepIndex < dotIndex then
    let stem := (s.take dotIndex.toNat).drop (sepIndex + 1).toNat
    if stem.any (· ≠ '.') then ⟨s.take dotIndex.toNat⟩ else p
  else p

/-- POSIX `os.path.basename(p)`: everything after the last `/`. -/
def pathBasename (p : String) : String :=
  ⟨p.toList.drop (lastIdxOf '/' p.toList + 1).toNat⟩

/-- The MP3 post-processing instruction of lines 216-220. -/
def mp3Post : Postprocessor :=
  { key := "FFmpegExtractAudio", preferredcodec := "mp3", preferredquality := "192" }

/-- The WAV post-processing instruction of lines 226-231. -/
def wavPost : Postprocessor :=
  { key := "FFmpegExtractAudio", preferredcodec := "wav", preferredquality := "best" }

/-- The adapter options assembled by `download_video` (lines 202-233):
base options with `skip_download=False`, then the per-download update
(`format`, `outtmpl`, `noplaylist`), then the audio-target overrides
that force the best-audio selector and attach a transcoding
post-processor. -/
def build_download_opts (format_id output_file ext : String) : YdlOpts :=
  let base : YdlOpts :=
    { ydl_base_opts false with
        format := some format_id
        outtmpl := some output_file
        noplaylist := some true }
  if ext = "mp3" then
    { base with format := some "bestaudio/best", postprocessors := some [mp3Post] }
  else if ext = "wav" then
    { base with format := some "bestaudio/best", postprocessors := some [wavPost] }
  else base

/-- The options `download_video` passes to `yt_dlp.YoutubeDL` at line 235
for a given call: `build_download_opts` applied to the format id, the
composed output path, and the target extension. -/
def download_video_opts (probe : Except String VideoInfo)
    (url output_path format_id ext : String) (filename? : Option String) : YdlOpts :=
  build_download_opts format_id (outputFile probe url output_path ext filename?) ext

/-- `VideoDownloader.download_video` (downloader.py lines 166-258).
Effect outcomes are parameters: `probe` is the result of the
`get_video_info(url)` call at line 187, `error_code` the completion code
returned by the adapter transfer at line 236, `outputExists` the
`os.path.exists(output_file)` test at line 241, and `dirListing` the
`os.listdir(output_path)` contents at line 245.  Every failure is
wrapped by the outer handler at lines 257-258. -/
def download_video (probe : Except String VideoInfo)
    (url output_path format_id ext : String) (filename? : Option String)
    (error_code : Int) (outputExists : Bool) (dirListing : List String) :
    Except String String :=
  let output_file := outputFile probe url output_path ext filename?
  let inner : Except String String :=
    if error_code ≠ 0 then
      Except.error ("Erro ao baixar vídeo (código " ++ toString error_code ++ ")")
    else if outputExists then
      Except.ok output_file
    else
      let base_output := splitextRoot output_file
      match dirListing.filter (fun f => pyStartsWith f (pathBasename base_output)) with
      | f :: _ => Except.ok (pathJoin output_path f)
      | [] => Except.error "Arquivo não foi criado após o download"
  match inner with
  | Except.ok r => Except.ok r
  | Except.error e => Except.error ("Erro ao baixar vídeo: " ++ e)

/-- The loop of `download_multiple` (downloader.py lines 277-285).  `dl`
abstracts the call `download_video(url, output_path, format_id, ext)`
for one URL; `files` and `errs` are the accumulators `downloaded_files`
and `errors`. -/
def download_multiple_go (dl : String → Except String String) :
    List String → List String → List String → List String × List String
  | [], files, errs => (files, errs)
  | u :: rest, files, errs =>
    match dl u with
    | Except.ok p => download_multiple_go dl rest (files ++ [p]) errs
    | Except.error e =>
      download_multiple_go dl rest files (errs ++ ["Erro ao baixar " ++ u ++ ": " ++ e])

/-- `VideoDownloader.download_multiple` (downloader.py lines 260-291):
attempt every URL in order, then either return all output paths or raise
one aggregated error joining the per-URL failure messages. -/
def download_multiple (dl : String → Except String String) (urls : List String) :
    Except String (List String) :=
  let res := download_multiple_go dl urls [] []
  if res.2.isEmpty then Except.ok res.1
  else
    Except.error ("Erros durante o download em lote:\n" ++ String.intercalate "\n" res.2)

/-- The failure messages `download_multiple` accumulates, in input order:
one entry per URL whose download raised. -/
def batchErrors (dl : String → Except String String) (urls : List String) : List String :=
  urls.filterMap fun u =>
    match dl u with
    | Except.ok _ => none
    | Except.error e => some ("Erro ao baixar " ++ u ++ ": " ++ e)

/-- The successful output paths `download_multiple` accumulates, in input
order. -/
def batchSuccesses (dl : String → Except String String) (urls : List String) : List String :=
  urls.filterMap fun u => (dl u).toOption

/-- The resolution class of a format entry: the height of the raw format
it embeds (0 for the audio entries, whose `format` is `none`). -/
def resOf (c : FormatChoice) : Nat :=
  (c.format.bind RawFormat.height).getD 0

/-- Proof-side reformulation of `selectVideoFormats` that threads the
remaining budget `k = 5 - acc.length` instead of the accumulator;
`selectVideoFormats_eq_selectBudget` proves the two agree. -/
def selectBudget : List RawFormat → List Nat → Nat → List FormatChoice
  | [], _, _ => []
  | f :: rest, added, k =>
    match f.height with
    | none => selectBudget rest added k
    | some h =>
      if h ≠ 0 ∧ 0 < k then
        if h ∈ added then selectBudget rest added k
        else videoChoice f h :: selectBudget rest (h :: added) (k - 1)
      else selectBudget rest added k

/-- The number of heights still eligible for selection in `l`: distinct,
nonzero, and not yet in the dedup set `added`. -/
def freshCount (l : List RawFormat) (added : List Nat) : Nat :=
  ((l.map heightKey).toFinset.filter (fun h => h ≠ 0 ∧ h ∉ added)).card

/-- Concrete probe fixture used to exercise the selection policy: six
usable mp4+audio entries spanning the five distinct nonzero heights
1080, 720 (listed twice), 480, 360 and 240. -/
def sampleInfoFive : VideoInfo :=
  { id := "u"
    title := some "t"
    uploader := some "up"
    formats :=
      [{ format_id := "a", ext := some "mp4", height := some 1080,
          acodec := some "aac", format_note := some "hd" },
        { format_id := "b", ext := some "mp4", height := some 720,
          acodec := some "aac", format_note := some "" },
        { format_id := "b2", ext := some "mp4", height := some 720,
          acodec := some "aac", format_note := some "" },
        { format_id := "c", ext := some "mp4", height := some 480,
          acodec := some "aac", format_note := some "" },
        { format_id := "d", ext := some "mp4", height := some 360,
          acodec := some "aac", format_note := some "" },
        { format_id := "e", ext := some "mp4", height := some 240,
          acodec := some "aac", format_note := some "" }] }

/-- Concrete probe fixture whose usable entries carry the five distinct
known heights 4, 3, 2, 1 and 0. -/
def sampleInfoZero : VideoInfo :=
  { id := "u"
    title := some "t"
    uploader := some "up"
    formats :=
      [{ format_id := "a", ext := some "mp4", height := some 4,
          acodec := some "aac", format_note := some "" },
        { format_id := "b", ext := some "mp4", height := some 3,
          acodec := some "aac", format_note := some "" },
        { format_id := "c", ext := some "mp4", height := some 2,
          acodec := some "aac", format_note := some "" },
        { format_id := "d", ext := some "mp4", height := some 1,
          acodec := some "aac", format_note := some "" },
        { format_id := "e", ext := some "mp4", height := some 0,
          acodec := some "aac", format_note := some "" }] }

/-! ## Claims about the fallback path (C1, C7) -/

/-- C1: the claim says that when the probe fails, or yields an empty or
unusable raw format list, `get_available_formats` returns the fixed
fallback list and never raises.  The code disagrees: on both degraded
paths the call to `get_fallback_formats` raises `NameError` over the
undefined global `MP4_QUALITY_PRESETS`, which reaches the outer handler,
so `get_available_formats` raises a wrapped error to its caller instead
of returning the fallback list.  This theorem evaluates the embedding at
both failing inputs: a failing probe, and a probe that returns an empty
format list. -/
theorem fallback_path_raises :
    get_available_formats "url1" (Except.error "network error")
        (Except.ok { id := "url1", title := some "t", uploader := some "up", formats := [] })
        = Except.error "Erro ao obter formatos disponíveis: name MP4_QUALITY_PRESETS is not defined"
      ∧ get_available_formats "url1"
          (Except.ok { id := "url1", title := some "t", uploader := some "up", formats := [] })
          (Except.ok { id := "url1", title := some "t", uploader := some "up", formats := [] })
        = Except.error "Erro ao obter formatos disponíveis: name MP4_QUALITY_PRESETS is not defined" :=
  ⟨rfl, rfl⟩

/-- C7, counterexample: with format discovery and the secondary probe
both failing, `get_available_formats` does not complete with a
synthesized placeholder `MediaSource` — it raises, because the
`get_fallback_formats()` call inside the error handler raises `NameError`
before the secondary probe is even attempted. -/
theorem placeholder_synthesis_counterexample :
    get_available_formats "u" (Except.error "probe down") (Except.error "probe down again")
      = Except.error "Erro ao obter formatos disponíveis: name MP4_QUALITY_PRESETS is not defined" :=
  rfl

/-- C7, amended: when format discovery fails and the secondary
metadata-only probe would also fail, format resolution does not
complete: the `NameError` over the undefined `MP4_QUALITY_PRESETS`
escapes the recovery path first, and `get_available_formats` raises the
wrapped error for every URL and every pair of probe failures.  (The
placeholder that the unreachable line 159 would synthesize carries title
`'Vídeo do YouTube'` and uploader `'Desconhecido'`, not `"unknown"`; see
`placeholderInfo`.) -/
theorem degraded_path_raises (url e1 e2 : String) :
    get_available_formats url (Except.error e1) (Except.error e2)
      = Except.error "Erro ao obter formatos disponíveis: name MP4_QUALITY_PRESETS is not defined" :=
  rfl

/-! ## Claims about the adapter options (C4, C8) -/

/-- C4: for a download with target extension `mp3`, the options actually
issued to the adapter carry format selector `'bestaudio/best'` whatever
`format_id` was chosen, plus the `FFmpegExtractAudio` post-processor at
quality 192; likewise for `wav` at quality `'best'`. -/
theorem audio_opts_force_bestaudio (probe : Except String VideoInfo)
    (url output_path format_id : String) (filename? : Option String) :
    ((download_video_opts probe url output_path format_id "mp3" filename?).format
        = some "bestaudio/best"
      ∧ (download_video_opts probe url output_path format_id "mp3" filename?).postprocessors
        = some [{ key := "FFmpegExtractAudio", preferredcodec := "mp3", preferredquality := "192" }])
    ∧ (download_video_opts probe url output_path format_id "wav" filename?).format
        = some "bestaudio/best"
      ∧ (download_video_opts probe url output_path format_id "wav" filename?).postprocessors
        = some [{ key := "FFmpegExtractAudio", preferredcodec := "wav", preferredquality := "best" }] := by
  refine ⟨⟨?_, ?_⟩, ?_, ?_⟩ <;> rfl

/-- C8: the options issued for any single download set `noplaylist`
(to `True`), for every combination of arguments, so a single URL is
never expanded into a playlist. -/
theorem download_opts_noplaylist (probe : Except String VideoInfo)
    (url output_path format_id ext : String) (filename? : Option String) :
    (download_video_opts probe url output_path format_id ext filename?).noplaylist = some true := by
  unfold download_video_opts build_download_opts
  split_ifs <;> rfl

/-! ## Claims about the composed filename (C9, C10) -/

/-- C9, counterexample: with no explicit filename and a probed title that
is the empty string, the composed filename is `".mp4"`: the sanitized
base name is empty, so the filename is not "a non-empty base name plus
the target extension" as the claim states. -/
theorem composed_filename_empty_base_counterexample :
    effectiveFilename (Except.ok { id := "u", title := some "", uploader := some "", formats := [] })
        "u" "mp4" none = ".mp4"
      ∧ safe_title
          (videoTitle (Except.ok { id := "u", title := some "", uploader := some "", formats := [] }) "u")
        = "" :=
  ⟨rfl, rfl⟩

/-- C9, amended: with no explicit filename the composed filename is
always the sanitized base name followed by a dot and the target
extension; it is a non-empty string (it contains the dot), but its base
name may be empty — for an empty probed title the filename degenerates
to `"." ++ ext`. -/
theorem composed_filename_structure (probe : Except String VideoInfo) (url ext : String) :
    effectiveFilename probe url ext none
        = safe_title (videoTitle probe url) ++ "." ++ ext
      ∧ effectiveFilename probe url ext none ≠ "" := by
  refine ⟨rfl, fun h => ?_⟩
  have hlen := congrArg String.length h
  rw [show effectiveFilename probe url ext none
        = safe_title (videoTitle probe url) ++ "." ++ ext from rfl] at hlen
  simp [String.length_append] at hlen
  exact absurd hlen.1.2 (by decide)

/-- C10, counterexample: an explicit filename argument holding the empty
string is not used verbatim — `if not filename` treats it like an absent
filename, and the composed sanitized-title name is used instead, so the
output path differs from joining the destination with the supplied
value. -/
theorem explicit_filename_empty_counterexample :
    outputFile (Except.ok { id := "u", title := some "My Video", uploader := none, formats := [] })
        "u" "/out" "mp4" (some "") = "/out/My Video.mp4"
      ∧ pathJoin "/out" "" = "/out/"
      ∧ ("/out/My Video.mp4" : String) ≠ "/out/" := by
  refine ⟨by decide, by decide, by decide⟩

/-- C10, amended: for every non-empty explicit filename the output path
is exactly the destination directory joined with that filename verbatim:
no sanitization is applied to it and no target extension is appended.
(The empty string is the one exception: Python truthiness routes it to
the composed-title path.) -/
theorem explicit_filename_verbatim (probe : Except String VideoInfo)
    (url output_path ext f : String) (hf : f ≠ "") :
    outputFile probe url output_path ext (some f) = pathJoin output_path f := by
  unfold outputFile effectiveFilename
  simp [hf]

/-- Witness for `explicit_filename_verbatim` at a concrete input. -/
theorem explicit_filename_verbatim_witness :
    ("name.bin" : String) ≠ ""
      ∧ outputFile (Except.error "e") "u" "/out" "mp4" (some "name.bin")
        = pathJoin "/out" "name.bin" :=
  ⟨by decide, explicit_filename_verbatim (Except.error "e") "u" "/out" "mp4" "name.bin" (by decide)⟩

/-! ## The batch download (C3) -/

/-- Closed form of the batch loop: it walks the whole URL list and ends
with the successes and the failure messages appended to the incoming
accumulators, each in input order. -/
theorem download_multiple_go_spec (dl : String → Except String String) :
    ∀ urls files errs,
      download_multiple_go dl urls files errs
        = (files ++ batchSuccesses dl urls, errs ++ batchErrors dl urls)
  | [], files, errs => by
    simp [download_multiple_go, batchSuccesses, batchErrors]
  | u :: rest, files, errs => by
    cases h : dl u with
    | ok p =>
      simp [download_multiple_go, batchSuccesses, batchErrors, h,
        download_multiple_go_spec dl rest, List.filterMap_cons, Except.toOption]
    | error e =>
      simp [download_multiple_go, batchSuccesses, batchErrors, h,
        download_multiple_go_spec dl rest, List.filterMap_cons, Except.toOption]

/-- C3: `download_multiple` attempts every URL (its loop never stops
early, so the failure list enumerates the failures of the whole input,
in input order); when no URL failed it returns all output paths in input
order, and when at least one failed it discards the collected paths and
raises one composite error joining every per-URL failure message; every
failing URL contributes its message to that list. -/
theorem download_multiple_spec (dl : String → Except String String) (urls : List String) :
    (batchErrors dl urls = [] →
        download_multiple dl urls = Except.ok (batchSuccesses dl urls))
    ∧ (batchErrors dl urls ≠ [] →
        download_multiple dl urls
          = Except.error ("Erros durante o download em lote:\n"
              ++ String.intercalate "\n" (batchErrors dl urls)))
    ∧ (∀ u ∈ urls, ∀ e, dl u = Except.error e →
        ("Erro ao baixar " ++ u ++ ": " ++ e) ∈ batchErrors dl urls
          ∧ batchErrors dl urls ≠ []) := by
  have hgo := download_multiple_go_spec dl urls [] []
  refine ⟨fun he => ?_, fun hne => ?_, fun u hu e hde => ?_⟩
  · simp [download_multiple, hgo, he]
  · simp [download_multiple, hgo, hne]
  · have hmem : ("Erro ao baixar " ++ u ++ ": " ++ e) ∈ batchErrors dl urls :=
      List.mem_filterMap.mpr ⟨u, hu, by rw [hde]⟩
    exact ⟨hmem, List.ne_nil_of_mem hmem⟩

/-- Witness for `download_multiple_spec`: a two-URL batch whose first
item succeeds and second fails raises the composite error naming the
second URL, and that URL's message is recorded. -/
theorem download_multiple_spec_witness :
    download_multiple (fun u => if u = "u1" then Except.ok "p1" else Except.error "boom")
        ["u1", "u2"]
        = Except.error "Erros durante o download em lote:\nErro ao baixar u2: boom"
      ∧ ("Erro ao baixar u2: boom")
          ∈ batchErrors (fun u => if u = "u1" then Except.ok "p1" else Except.error "boom")
            ["u1", "u2"] := by
  have h := download_multiple_spec
    (fun u => if u = "u1" then Except.ok "p1" else Except.error "boom") ["u1", "u2"]
  refine ⟨((h.2.1 (by decide)).trans (congrArg Except.error (by decide))), ?_⟩
  exact (h.2.2 "u2" (by simp) "boom" (by simp)).1

/-! ## The artifact scan (C6) -/

/-- C6: after a transfer that reported success (`error_code = 0`) whose
expected output file is absent, `download_video` filters the destination
listing for names starting with the extension-stripped expected base
name; it returns the destination joined with the first match when one
exists, and raises the artifact-not-produced error exactly when the
filter comes back empty. -/
theorem download_video_artifact_scan (probe : Except String VideoInfo)
    (url output_path format_id ext : String) (filename? : Option String)
    (dirListing : List String) :
    (∀ m rest,
        dirListing.filter
            (fun f => pyStartsWith f
              (pathBasename (splitextRoot (outputFile probe url output_path ext filename?))))
          = m :: rest →
        download_video probe url output_path format_id ext filename? 0 false dirListing
          = Except.ok (pathJoin output_path m))
    ∧ (dirListing.filter
          (fun f => pyStartsWith f
            (pathBasename (splitextRoot (outputFile probe url output_path ext filename?))))
          = [] →
        download_video probe url output_path format_id ext filename? 0 false dirListing
          = Except.error "Erro ao baixar vídeo: Arquivo não foi criado após o download") := by
  refine ⟨fun m rest hm => ?_, fun hnil => ?_⟩
  · simp [download_video, hm]
  · simp [download_video, hnil]

/-- Witness for `download_video_artifact_scan`: a renamed post-processed
file `vid.mp3` is recovered from the listing, and an unrelated listing
raises the artifact error. -/
theorem download_video_artifact_scan_witness :
    download_video (Except.ok { id := "u", title := some "vid", uploader := none, formats := [] })
        "u" "/out" "fmt" "mp3" none 0 false ["vid.mp3", "other"]
        = Except.ok (pathJoin "/out" "vid.mp3")
      ∧ download_video (Except.ok { id := "u", title := some "vid", uploader := none, formats := [] })
          "u" "/out" "fmt" "mp3" none 0 false ["other"]
        = Except.error "Erro ao baixar vídeo: Arquivo não foi criado após o download" := by
  constructor
  · exact (download_video_artifact_scan
      (Except.ok { id := "u", title := some "vid", uploader := none, formats := [] })
      "u" "/out" "fmt" "mp3" none ["vid.mp3", "other"]).1 "vid.mp3" [] (by decide)
  · exact (download_video_artifact_scan
      (Except.ok { id := "u", title := some "vid", uploader := none, formats := [] })
      "u" "/out" "fmt" "mp3" none ["other"]).2 (by decide)

/-! ## The title sanitizer (C5) -/

/-- A character surviving `dropWhile p` at the head fails `p`. -/
theorem head?_dropWhile_eq_false {α : Type} (p : α → Bool) (l : List α) {c : α}
    (h : (l.dropWhile p).head? = some c) : p c = false := by
  have hd := List.head?_dropWhile_not p l
  rw [h] at hd
  exact hd

/-- The last element of a non-empty suffix is the last element of the
whole list. -/
theorem suffix_getLast? {α : Type} {l v : List α} (h : List.IsSuffix v l) (hv : v ≠ []) :
    v.getLast? = l.getLast? := by
  obtain ⟨w, rfl⟩ := h
  rw [List.getLast?_append]
  cases hg : v.getLast? with
  | none => exact absurd (List.getLast?_eq_none_iff.mp hg) hv
  | some x => rfl

/-- `pyStrip` removes exactly a whitespace prefix and a whitespace
suffix. -/
theorem pyStrip_spec (s : List Char) :
    ∃ pre post : List Char,
      (∀ c ∈ pre, c.isWhitespace = true) ∧ (∀ c ∈ post, c.isWhitespace = true) ∧
        pre ++ pyStrip s ++ post = s := by
  refine ⟨s.takeWhile Char.isWhitespace,
    ((s.dropWhile Char.isWhitespace).reverse.takeWhile Char.isWhitespace).reverse,
    fun c hc => List.mem_takeWhile_imp hc,
    fun c hc => List.mem_takeWhile_imp (List.mem_reverse.mp hc), ?_⟩
  have h1 : pyStrip s
        ++ ((s.dropWhile Char.isWhitespace).reverse.takeWhile Char.isWhitespace).reverse
      = s.dropWhile Char.isWhitespace := by
    unfold pyStrip
    rw [← List.reverse_append, List.takeWhile_append_dropWhile, List.reverse_reverse]
  rw [List.append_assoc, h1, List.takeWhile_append_dropWhile]

/-- `pyStrip` yields a sublist (in fact an infix) of its input. -/
theorem pyStrip_sublist (s : List Char) : List.Sublist (pyStrip s) s := by
  have h1 : List.Sublist
      ((s.dropWhile Char.isWhitespace).reverse.dropWhile Char.isWhitespace).reverse
      (s.dropWhile Char.isWhitespace).reverse.reverse :=
    List.reverse_sublist.mpr (List.dropWhile_sublist _)
  rw [List.reverse_reverse] at h1
  exact h1.trans (List.dropWhile_sublist _)

/-- The first character surviving `pyStrip` is not whitespace. -/
theorem pyStrip_head? (s : List Char) {c : Char}
    (h : (pyStrip s).head? = some c) : c.isWhitespace = false := by
  unfold pyStrip at h
  rw [List.head?_reverse] at h
  have hne : (s.dropWhile Char.isWhitespace).reverse.dropWhile Char.isWhitespace ≠ [] := by
    intro hnil
    rw [hnil] at h
    exact Option.noConfusion h
  rw [suffix_getLast? (List.dropWhile_suffix _) hne, List.getLast?_reverse] at h
  exact head?_dropWhile_eq_false _ _ h

/-- The last character surviving `pyStrip` is not whitespace. -/
theorem pyStrip_getLast? (s : List Char) {c : Char}
    (h : (pyStrip s).getLast? = some c) : c.isWhitespace = false := by
  unfold pyStrip at h
  rw [List.getLast?_reverse] at h
  exact head?_dropWhile_eq_false _ _ h

/-- C5: the sanitizer keeps exactly the characters that are alphanumeric
or in `' -_.,()[]\x7b\x7d'`, in their original order (its output is the
allowed-character subsequence of the title, up to the whitespace prefix
and suffix removed by the final strip, and both of its ends are
non-whitespace); in particular `"Title: Test!? (HD)"` sanitizes to
`"Title Test (HD)"`. -/
theorem safe_title_spec :
    (∀ t : String,
        (∃ pre post : List Char,
            (∀ c ∈ pre, c.isWhitespace = true) ∧ (∀ c ∈ post, c.isWhitespace = true) ∧
              pre ++ (safe_title t).toList ++ post = t.toList.filter isAllowedChar)
          ∧ (safe_title t).toList.Sublist t.toList
          ∧ (∀ c ∈ (safe_title t).toList, isAllowedChar c = true)
          ∧ (∀ c, (safe_title t).toList.head? = some c → c.isWhitespace = false)
          ∧ (∀ c, (safe_title t).toList.getLast? = some c → c.isWhitespace = false))
      ∧ safe_title "Title: Test!? (HD)" = "Title Test (HD)" := by
  constructor
  · intro t
    have hdef : (safe_title t).toList = pyStrip (t.toList.filter isAllowedChar) := rfl
    refine ⟨?_, ?_, ?_, ?_, ?_⟩
    · obtain ⟨pre, post, h1, h2, h3⟩ := pyStrip_spec (t.toList.filter isAllowedChar)
      exact ⟨pre, post, h1, h2, by rw [hdef, h3]⟩
    · rw [hdef]
      exact (pyStrip_sublist _).trans (List.filter_sublist _)
    · intro c hc
      rw [hdef] at hc
      exact List.of_mem_filter ((pyStrip_sublist _).subset hc)
    · intro c hc
      rw [hdef] at hc
      exact pyStrip_head? _ hc
    · intro c hc
      rw [hdef] at hc
      exact pyStrip_getLast? _ hc
  · decide

/-- Witness for `safe_title_spec`, discharging its conditional parts at
the example title. -/
theorem safe_title_spec_witness :
    (safe_title "Title: Test!? (HD)").toList.Sublist ("Title: Test!? (HD)").toList
      ∧ Char.isWhitespace 'T' = false := by
  refine ⟨(safe_title_spec.1 "Title: Test!? (HD)").2.1, ?_⟩
  exact (safe_title_spec.1 "Title: Test!? (HD)").2.2.2.1 'T' (by decide)

/-! ## The format selection loop (C2) -/

/-- Unfolding: the selection loop on the empty list returns the
accumulator. -/
theorem selectVideoFormats_nil (added : List Nat) (acc : List FormatChoice) :
    selectVideoFormats [] added acc = acc :=
  rfl

/-- Unfolding: an entry with no height is skipped. -/
theorem selectVideoFormats_cons_none (f : RawFormat) (rest : List RawFormat)
    (added : List Nat) (acc : List FormatChoice) (hh : f.height = none) :
    selectVideoFormats (f :: rest) added acc = selectVideoFormats rest added acc := by
  rw [selectVideoFormats, hh]

/-- Unfolding: an entry is skipped when its height is falsy or the
accumulator is full. -/
theorem selectVideoFormats_cons_stop (f : RawFormat) (rest : List RawFormat)
    (added : List Nat) (acc : List FormatChoice) (h : Nat) (hh : f.height = some h)
    (hcond : ¬(h ≠ 0 ∧ acc.length < 5)) :
    selectVideoFormats (f :: rest) added acc = selectVideoFormats rest added acc := by
  rw [selectVideoFormats, hh]
  simp only []
  rw [if_neg hcond]

/-- Unfolding: an entry whose height was already taken is skipped. -/
theorem selectVideoFormats_cons_mem (f : RawFormat) (rest : List RawFormat)
    (added : List Nat) (acc : List FormatChoice) (h : Nat) (hh : f.height = some h)
    (hcond : h ≠ 0 ∧ acc.length < 5) (hmem : h ∈ added) :
    selectVideoFormats (f :: rest) added acc = selectVideoFormats rest added acc := by
  rw [selectVideoFormats, hh]
  simp only []
  rw [if_pos hcond, if_pos hmem]

/-- Unfolding: a fresh nonzero height is selected. -/
theorem selectVideoFormats_cons_select (f : RawFormat) (rest : List RawFormat)
    (added : List Nat) (acc : List FormatChoice) (h : Nat) (hh : f.height = some h)
    (hcond : h ≠ 0 ∧ acc.length < 5) (hmem : h ∉ added) :
    selectVideoFormats (f :: rest) added acc
      = selectVideoFormats rest (h :: added) (acc ++ [videoChoice f h]) := by
  rw [selectVideoFormats, hh]
  simp only []
  rw [if_pos hcond, if_neg hmem]

/-- Unfolding: the budget-threaded loop on the empty list. -/
theorem selectBudget_nil (added : List Nat) (k : Nat) :
    selectBudget [] added k = [] :=
  rfl

/-- Unfolding (budget form): no height. -/
theorem selectBudget_cons_none (f : RawFormat) (rest : List RawFormat)
    (added : List Nat) (k : Nat) (hh : f.height = none) :
    selectBudget (f :: rest) added k = selectBudget rest added k := by
  rw [selectBudget, hh]

/-- Unfolding (budget form): falsy height or exhausted budget. -/
theorem selectBudget_cons_stop (f : RawFormat) (rest : List RawFormat)
    (added : List Nat) (k : Nat) (h : Nat) (hh : f.height = some h)
    (hcond : ¬(h ≠ 0 ∧ 0 < k)) :
    selectBudget (f :: rest) added k = selectBudget rest added k := by
  rw [selectBudget, hh]
  simp only []
  rw [if_neg hcond]

/-- Unfolding (budget form): height already taken. -/
theorem selectBudget_cons_mem (f : RawFormat) (rest : List RawFormat)
    (added : List Nat) (k : Nat) (h : Nat) (hh : f.height = some h)
    (hcond : h ≠ 0 ∧ 0 < k) (hmem : h ∈ added) :
    selectBudget (f :: rest) added k = selectBudget rest added k := by
  rw [selectBudget, hh]
  simp only []
  rw [if_pos hcond, if_pos hmem]

/-- Unfolding (budget form): a fresh nonzero height is selected. -/
theorem selectBudget_cons_select (f : RawFormat) (rest : List RawFormat)
    (added : List Nat) (k : Nat) (h : Nat) (hh : f.height = some h)
    (hcond : h ≠ 0 ∧ 0 < k) (hmem : h ∉ added) :
    selectBudget (f :: rest) added k
      = videoChoice f h :: selectBudget rest (h :: added) (k - 1) := by
  rw [selectBudget, hh]
  simp only []
  rw [if_pos hcond, if_neg hmem]

/-- The selection loop equals its budget-threaded reformulation. -/
theorem selectVideoFormats_eq_selectBudget :
    ∀ (l : List RawFormat) (added : List Nat) (acc : List FormatChoice),
      selectVideoFormats l added acc = acc ++ selectBudget l added (5 - acc.length)
  | [], added, acc => by
    rw [selectVideoFormats_nil, selectBudget_nil, List.append_nil]
  | f :: rest, added, acc => by
    cases hh : f.height with
    | none =>
      rw [selectVideoFormats_cons_none f rest added acc hh,
        selectBudget_cons_none f rest added _ hh]
      exact selectVideoFormats_eq_selectBudget rest added acc
    | some h =>
      by_cases h0 : h = 0
      · subst h0
        rw [selectVideoFormats_cons_stop f rest added acc 0 hh (by simp),
          selectBudget_cons_stop f rest added _ 0 hh (by simp)]
        exact selectVideoFormats_eq_selectBudget rest added acc
      · by_cases hlen : acc.length < 5
        · have hcond : h ≠ 0 ∧ acc.length < 5 := ⟨h0, hlen⟩
          have hcond' : h ≠ 0 ∧ 0 < 5 - acc.length := ⟨h0, by omega⟩
          by_cases hmem : h ∈ added
          · rw [selectVideoFormats_cons_mem f rest added acc h hh hcond hmem,
              selectBudget_cons_mem f rest added _ h hh hcond' hmem]
            exact selectVideoFormats_eq_selectBudget rest added acc
          · rw [selectVideoFormats_cons_select f rest added acc h hh hcond hmem,
              selectBudget_cons_select f rest added _ h hh hcond' hmem,
              selectVideoFormats_eq_selectBudget rest (h :: added) (acc ++ [videoChoice f h])]
            have hlen2 : (acc ++ [videoChoice f h]).length = acc.length + 1 := by simp
            rw [hlen2, Nat.sub_sub, List.append_assoc]
            rfl
        · have hcond : ¬(h ≠ 0 ∧ acc.length < 5) := fun hc => hlen hc.2
          have hcond' : ¬(h ≠ 0 ∧ 0 < 5 - acc.length) := by
            intro hc
            have := hc.2
            omega
          rw [selectVideoFormats_cons_stop f rest added acc h hh hcond,
            selectBudget_cons_stop f rest added _ h hh hcond']
          exact selectVideoFormats_eq_selectBudget rest added acc

/-- Every selected entry is a `videoChoice` built from a list element
with nonzero height outside the incoming dedup set. -/
theorem selectBudget_mem :
    ∀ (l : List RawFormat) (added : List Nat) (k : Nat) (c : FormatChoice),
      c ∈ selectBudget l added k →
      ∃ f h, f ∈ l ∧ f.height = some h ∧ h ≠ 0 ∧ h ∉ added ∧ c = videoChoice f h
  | [], added, k, c => by
    intro hc
    rw [selectBudget_nil] at hc
    exact absurd hc (List.not_mem_nil c)
  | f :: rest, added, k, c => by
    intro hc
    cases hh : f.height with
    | none =>
      rw [selectBudget_cons_none f rest added k hh] at hc
      obtain ⟨f', h', hf', hh', h0', hna', hceq⟩ := selectBudget_mem rest added k c hc
      exact ⟨f', h', List.mem_cons_of_mem _ hf', hh', h0', hna', hceq⟩
    | some h =>
      by_cases hcond : h ≠ 0 ∧ 0 < k
      · by_cases hmem : h ∈ added
        · rw [selectBudget_cons_mem f rest added k h hh hcond hmem] at hc
          obtain ⟨f', h', hf', hh', h0', hna', hceq⟩ := selectBudget_mem rest added k c hc
          exact ⟨f', h', List.mem_cons_of_mem _ hf', hh', h0', hna', hceq⟩
        · rw [selectBudget_cons_select f rest added k h hh hcond hmem] at hc
          rcases List.mem_cons.mp hc with hceq | hc'
          · exact ⟨f, h, List.mem_cons_self _ _, hh, hcond.1, hmem, hceq⟩
          · obtain ⟨f', h', hf', hh', h0', hna', hceq⟩ :=
              selectBudget_mem rest (h :: added) (k - 1) c hc'
            exact ⟨f', h', List.mem_cons_of_mem _ hf', hh', h0',
              fun hmm => hna' (List.mem_cons_of_mem _ hmm), hceq⟩
      · rw [selectBudget_cons_stop f rest added k h hh hcond] at hc
        obtain ⟨f', h', hf', hh', h0', hna', hceq⟩ := selectBudget_mem rest added k c hc
        exact ⟨f', h', List.mem_cons_of_mem _ hf', hh', h0', hna', hceq⟩

/-- On a list sorted by non-increasing height the selected entries have
strictly decreasing resolutions. -/
theorem selectBudget_chain :
    ∀ (l : List RawFormat) (added : List Nat) (k : Nat),
      l.Pairwise byHeightDesc →
      List.Chain' (fun a b => resOf b < resOf a) (selectBudget l added k)
  | [], _, _, _ => by
    rw [selectBudget_nil]
    exact List.chain'_nil
  | f :: rest, added, k, hsort => by
    have hf := List.pairwise_cons.mp hsort
    cases hh : f.height with
    | none =>
      rw [selectBudget_cons_none f rest added k hh]
      exact selectBudget_chain rest added k hf.2
    | some h =>
      by_cases hcond : h ≠ 0 ∧ 0 < k
      · by_cases hmem : h ∈ added
        · rw [selectBudget_cons_mem f rest added k h hh hcond hmem]
          exact selectBudget_chain rest added k hf.2
        · rw [selectBudget_cons_select f rest added k h hh hcond hmem]
          refine List.chain'_cons'.mpr ⟨?_, selectBudget_chain rest (h :: added) (k - 1) hf.2⟩
          intro y hy
          obtain ⟨f', h', hf', hh', h0', hna', hyeq⟩ :=
            selectBudget_mem rest (h :: added) (k - 1) y (List.mem_of_mem_head? hy)
          have hle : heightKey f' ≤ heightKey f := hf.1 f' hf'
          rw [show heightKey f = h from by simp [heightKey, hh],
            show heightKey f' = h' from by simp [heightKey, hh']] at hle
          have hne : h' ≠ h := fun he => hna' (he ▸ List.mem_cons_self _ _)
          rw [hyeq, show resOf (videoChoice f' h') = h' from by simp [resOf, videoChoice, hh'],
            show resOf (videoChoice f h) = h from by simp [resOf, videoChoice, hh]]
          omega
      · rw [selectBudget_cons_stop f rest added k h hh hcond]
        exact selectBudget_chain rest added k hf.2

/-- A head entry whose key fails the eligibility test does not change the
count of eligible heights. -/
theorem freshCount_cons_skip (f : RawFormat) (rest : List RawFormat) (added : List Nat)
    (hp : ¬(heightKey f ≠ 0 ∧ heightKey f ∉ added)) :
    freshCount (f :: rest) added = freshCount rest added := by
  unfold freshCount
  rw [List.map_cons, List.toFinset_cons, Finset.filter_insert, if_neg hp]

/-- Selecting a fresh nonzero height decreases by one the count of
eligible heights. -/
theorem freshCount_cons_select (f : RawFormat) (rest : List RawFormat) (added : List Nat)
    (h : Nat) (hh : f.height = some h) (hp : h ≠ 0) (hmem : h ∉ added) :
    freshCount (f :: rest) added = freshCount rest (h :: added) + 1 := by
  unfold freshCount
  rw [List.map_cons, List.toFinset_cons, show heightKey f = h from by simp [heightKey, hh],
    Finset.filter_insert, if_pos ⟨hp, hmem⟩]
  have hT : (rest.map heightKey).toFinset.filter (fun x => x ≠ 0 ∧ x ∉ h :: added)
      = ((rest.map heightKey).toFinset.filter (fun x => x ≠ 0 ∧ x ∉ added)).erase h := by
    ext x
    simp only [Finset.mem_filter, Finset.mem_erase, List.mem_cons, not_or]
    tauto
  have h2 : insert h ((rest.map heightKey).toFinset.filter (fun x => x ≠ 0 ∧ x ∉ added))
      = insert h (((rest.map heightKey).toFinset.filter (fun x => x ≠ 0 ∧ x ∉ added)).erase h) := by
    ext x
    simp only [Finset.mem_insert, Finset.mem_erase]
    tauto
  rw [hT, h2, Finset.card_insert_of_not_mem (Finset.not_mem_erase _ _)]

/-- The number of selected entries is the budget capped by the number of
eligible heights. -/
theorem selectBudget_length :
    ∀ (l : List RawFormat) (added : List Nat) (k : Nat),
      (selectBudget l added k).length = min k (freshCount l added)
  | [], added, k => by
    rw [selectBudget_nil]
    simp [freshCount]
  | f :: rest, added, k => by
    cases hh : f.height with
    | none =>
      have hp : ¬(heightKey f ≠ 0 ∧ heightKey f ∉ added) := by simp [heightKey, hh]
      rw [selectBudget_cons_none f rest added k hh, selectBudget_length rest added k,
        freshCount_cons_skip f rest added hp]
    | some h =>
      by_cases h0 : h = 0
      · subst h0
        have hp : ¬(heightKey f ≠ 0 ∧ heightKey f ∉ added) := by simp [heightKey, hh]
        rw [selectBudget_cons_stop f rest added k 0 hh (by simp),
          selectBudget_length rest added k, freshCount_cons_skip f rest added hp]
      · by_cases hmem : h ∈ added
        · have hp : ¬(heightKey f ≠ 0 ∧ heightKey f ∉ added) := by
            rw [show heightKey f = h from by simp [heightKey, hh]]
            intro hc
            exact hc.2 hmem
          by_cases hk : 0 < k
          · rw [selectBudget_cons_mem f rest added k h hh ⟨h0, hk⟩ hmem,
              selectBudget_length rest added k, freshCount_cons_skip f rest added hp]
          · rw [selectBudget_cons_stop f rest added k h hh (fun hc => hk hc.2),
              selectBudget_length rest added k, freshCount_cons_skip f rest added hp]
        · by_cases hk : 0 < k
          · rw [selectBudget_cons_select f rest added k h hh ⟨h0, hk⟩ hmem, List.length_cons,
              selectBudget_length rest (h :: added) (k - 1),
              freshCount_cons_select f rest added h hh h0 hmem]
            omega
          · rw [selectBudget_cons_stop f rest added k h hh (fun hc => hk hc.2),
              selectBudget_length rest added k]
            have hk0 : k = 0 := by omega
            subst hk0
            simp

/-- `freshCount` only depends on the multiset of entries. -/
theorem freshCount_perm (l l' : List RawFormat) (hp : List.Perm l l') (added : List Nat) :
    freshCount l added = freshCount l' added := by
  unfold freshCount
  rw [List.toFinset_eq_of_perm _ _ (hp.map heightKey)]

/-- With an empty dedup set the eligible heights are just the distinct
nonzero heights. -/
theorem freshCount_nil_added (l : List RawFormat) :
    freshCount l [] = ((l.map heightKey).toFinset.filter (fun h => h ≠ 0)).card := by
  unfold freshCount
  congr 1
  apply Finset.filter_congr
  intro x _
  simp

/-- C2, amended (the claim as stated fails at height 0, see
`formats_claim_counterexample`): for a probed info whose usable entries
(mp4, known height, audio track) span at least 5 distinct *nonzero*
heights, `get_available_formats` returns exactly 7 entries: 5 video
entries with pairwise-distinct strictly-descending resolutions, followed
by the mp3 and then the wav audio entry, both with the generic
`bestaudio/best` identifier. -/
theorem formats_five_plus_two (url : String) (info : VideoInfo)
    (probe2 : Except String VideoInfo)
    (hdist : 5 ≤ (((info.formats.filter isUsableVideo).map heightKey).toFinset.filter
        (fun h => h ≠ 0)).card) :
    ∃ l : List FormatChoice,
      get_available_formats url (Except.ok info) probe2 = Except.ok (l, info)
        ∧ l.length = 7
        ∧ l.drop 5 = [mp3Choice, wavChoice]
        ∧ mp3Choice.id = "bestaudio/best" ∧ mp3Choice.ext = "mp3"
        ∧ wavChoice.id = "bestaudio/best" ∧ wavChoice.ext = "wav"
        ∧ (∀ c ∈ l.take 5, c.ext = "mp4")
        ∧ List.Chain' (fun a b => resOf b < resOf a) (l.take 5)
        ∧ (l.take 5).Pairwise (fun a b => resOf a ≠ resOf b) := by
  have hsorted : (sortByHeightDesc (info.formats.filter isUsableVideo)).Pairwise byHeightDesc :=
    List.sorted_insertionSort byHeightDesc (info.formats.filter isUsableVideo)
  have hperm : List.Perm (sortByHeightDesc (info.formats.filter isUsableVideo))
      (info.formats.filter isUsableVideo) :=
    List.perm_insertionSort byHeightDesc (info.formats.filter isUsableVideo)
  have hfresh : 5 ≤ freshCount (sortByHeightDesc (info.formats.filter isUsableVideo)) [] := by
    rw [freshCount_perm _ _ hperm, freshCount_nil_added]
    exact hdist
  have hne : (info.formats.filter isUsableVideo).isEmpty = false := by
    cases hvf : info.formats.filter isUsableVideo with
    | nil =>
      rw [hvf] at hdist
      simp at hdist
    | cons a t => rfl
  have hsel : selectVideoFormats (sortByHeightDesc (info.formats.filter isUsableVideo)) [] []
      = selectBudget (sortByHeightDesc (info.formats.filter isUsableVideo)) [] 5 := by
    rw [selectVideoFormats_eq_selectBudget]
    rfl
  have hlen : (selectBudget (sortByHeightDesc (info.formats.filter isUsableVideo)) [] 5).length
      = 5 := by
    rw [selectBudget_length]
    exact Nat.min_eq_left hfresh
  have hgaf : get_available_formats url (Except.ok info) probe2
      = Except.ok
          (selectVideoFormats (sortByHeightDesc (info.formats.filter isUsableVideo)) [] []
              ++ [mp3Choice, wavChoice],
            info) := by
    simp [get_available_formats, hne]
  refine ⟨_, hgaf, ?_, ?_, rfl, rfl, rfl, rfl, ?_, ?_, ?_⟩
  · rw [hsel]
    simp [hlen]
  · rw [hsel, List.drop_left' hlen]
  · rw [hsel, List.take_left' hlen]
    intro c hc
    obtain ⟨f', h', _, _, _, _, hceq⟩ := selectBudget_mem _ _ _ c hc
    rw [hceq]
    rfl
  · rw [hsel, List.take_left' hlen]
    exact selectBudget_chain _ _ _ hsorted
  · rw [hsel, List.take_left' hlen]
    have hchain := selectBudget_chain
      (sortByHeightDesc (info.formats.filter isUsableVideo)) [] 5 hsorted
    haveI : IsTrans FormatChoice (fun a b => resOf b < resOf a) :=
      ⟨fun _ _ _ h1 h2 => Nat.lt_trans h2 h1⟩
    exact (List.chain'_iff_pairwise.mp hchain).imp fun h => (Nat.ne_of_lt h).symm


/-- Witness for `formats_five_plus_two`: five distinct nonzero heights
(1080, 720, 480, 360, 240, with 720 duplicated) yield a 7-entry list. -/
theorem formats_five_plus_two_witness :
    ∃ l : List FormatChoice,
      get_available_formats "u" (Except.ok sampleInfoFive) (Except.error "e")
          = Except.ok (l, sampleInfoFive)
        ∧ l.length = 7 := by
  obtain ⟨l, h1, h2, _⟩ :=
    formats_five_plus_two "u" sampleInfoFive (Except.error "e") (by decide)
  exact ⟨l, h1, h2⟩

/-- C2, counterexample to the claim as stated: five usable mp4+audio
entries whose known heights are 4, 3, 2, 1 and 0 give five distinct
known resolution heights, yet the result has 6 entries, not 7 — the
falsy height 0 is skipped by `if height`. -/
theorem formats_claim_counterexample :
    5 ≤ ((sampleInfoZero.formats.filter isUsableVideo).filterMap RawFormat.height).toFinset.card
      ∧ (get_available_formats "u" (Except.ok sampleInfoZero) (Except.error "e")).toOption.map
          (fun r => r.1.length)
        = some 6 := by
  constructor
  · decide
  · decide

end PyTubeGrabber
